import Mathlib

/-!
# Verification of the GameJobTracker core

A shallow embedding, in Lean 4, of the core of the `GameJobScraper`
repository: the text-processing / identity-hashing utilities
(`gamejobtracker/utils/text_processing.py`), the keyword scorer
(`gamejobtracker/scoring/keyword_scorer.py`), the scoring orchestrator
(`gamejobtracker/scoring/scorer_manager.py`) and the data-access layer
(`gamejobtracker/db/repository.py`, over the schema of
`gamejobtracker/db/models.py`).

Python strings are modelled as Lean `String` (operating on `List Char`);
Python floats are modelled as `ℚ` (all numeric literals in the scoring
code are short decimals, and the claims under verification concern their
exact decimal arithmetic); the SQLite database is modelled as explicit
state: lists of rows threaded through each repository operation.
-/

namespace GameJobTracker

/-! ## text_processing.py -/

/-- The characters removed by Python `str.strip()` (ASCII fragment:
space, tab, newline, carriage return, vertical tab, form feed). -/
def isPySpace (c : Char) : Bool :=
  c == ' ' || c == '\t' || c == '\n' || c == '\r' ||
  c == Char.ofNat 11 || c == Char.ofNat 12

/-- Python `str.strip()` on a character list: drop leading and trailing
whitespace. -/
def stripL (l : List Char) : List Char :=
  ((l.dropWhile isPySpace).reverse.dropWhile isPySpace).reverse

/-- Python `str.rstrip("/")`: drop trailing slashes. -/
def rstripSlash (l : List Char) : List Char :=
  (l.reverse.dropWhile (fun c => c == '/')).reverse

/-- Python `s.split(c)[0]`: everything before the first occurrence of
`c` (the whole list when `c` is absent). -/
def takeUntil (c : Char) (l : List Char) : List Char :=
  l.takeWhile (fun x => x ≠ c)

/-- Python `str.lower()` on one character (ASCII fragment: the URLs and
keyword tables this repository lowercases are ASCII). -/
def lowerChar (c : Char) : Char :=
  match c with
  | 'A' => 'a' | 'B' => 'b' | 'C' => 'c' | 'D' => 'd' | 'E' => 'e'
  | 'F' => 'f' | 'G' => 'g' | 'H' => 'h' | 'I' => 'i' | 'J' => 'j'
  | 'K' => 'k' | 'L' => 'l' | 'M' => 'm' | 'N' => 'n' | 'O' => 'o'
  | 'P' => 'p' | 'Q' => 'q' | 'R' => 'r' | 'S' => 's' | 'T' => 't'
  | 'U' => 'u' | 'V' => 'v' | 'W' => 'w' | 'X' => 'x' | 'Y' => 'y'
  | 'Z' => 'z'
  | c => c

/-- Python `str.lower()` on a character list. -/
def lowerL (l : List Char) : List Char := l.map lowerChar

/-- Python `str.lower()` on a string. -/
def lowerS (s : String) : String := String.mk (lowerL s.toList)

/-- Embeds `hash_string` (text_processing.py line 27): the SHA-256 hex digest of
a string.  The digest itself plays no role in any claim — only that equal
inputs give equal digests (true of any function) and that the distinct
short normalized URLs appearing below give distinct digests (true of
SHA-256, which has no known collision, a fortiori none among these
strings); it is therefore modelled by an injective tagging stand-in. -/
def hash_string (s : String) : String := "sha256:" ++ s

/-- The URL normalization inside `url_hash` (text_processing.py line 41):
`url.strip().rstrip("/").split("?")[0].split("#")[0].lower()` — note the
order: trailing slashes are stripped BEFORE the query string and fragment
are dropped. -/
def urlNormalize (url : String) : String :=
  String.mk (lowerL (takeUntil '#' (takeUntil '?' (rstripSlash (stripL url.toList)))))

/-- Embeds `url_hash` (text_processing.py lines 38-42). -/
def url_hash (url : String) : String := hash_string (urlNormalize url)

/-- Is `c` a "word" character for the regex `\w` (ASCII fragment)? -/
def isWordChar (c : Char) : Bool :=
  ('a' ≤ c && c ≤ 'z') || ('A' ≤ c && c ≤ 'Z') || ('0' ≤ c && c ≤ '9') || c == '_'

/-- Models `re.sub(r"\s+", " ", ·)`: collapse each maximal run of whitespace to
a single space.  The flag records whether the previous character was
whitespace. -/
def collapseWsAux : Bool → List Char → List Char
  | _, [] => []
  | prevWs, c :: rest =>
    if isPySpace c then
      if prevWs then collapseWsAux true rest
      else ' ' :: collapseWsAux true rest
    else c :: collapseWsAux false rest

/-- Embeds `normalize_text` (text_processing.py lines 17-24): lowercase, strip,
remove `[^\w\s]`, collapse whitespace runs. -/
def normalize_text (text : String) : String :=
  String.mk (collapseWsAux false
    ((stripL (lowerL text.toList)).filter (fun c => isWordChar c || isPySpace c)))

/-- Embeds `title_company_hash` (text_processing.py lines 32-35). -/
def title_company_hash (title company : String) : String :=
  hash_string (normalize_text title ++ "|" ++ normalize_text company)

/-- Python `s.rfind(" ")` on a character list: the largest index holding
a space, or `-1` when there is none. -/
def rfindSpace (l : List Char) : Int :=
  match l.reverse.findIdx? (fun x => x == ' ') with
  | some j => ((l.length - 1 - j : Nat) : Int)
  | none => -1

/-- Embeds `truncate` (text_processing.py lines 45-53).  `max_length * 0.8` is
modelled as `maxLength * (4/5)` in `ℚ`; at the only call site
(`maxLength = 3000`, ai_scorer.py line 58) the Python float product is
the exact integer `2400.0`, so this is faithful.  The guard
`if not text or len(text) <= max_length` collapses to the length test:
an empty string has length `0 ≤ maxLength`. -/
def truncate (text : String) (maxLength : Nat := 3000) : String :=
  if text.length ≤ maxLength then text
  else
    let truncated := text.toList.take maxLength
    let lastSpace := rfindSpace truncated
    let truncated' :=
      if ((lastSpace : ℚ) > (maxLength : ℚ) * (4/5)) then truncated.take lastSpace.toNat
      else truncated
    String.mk truncated' ++ "..."

/-- The truncated description embedded into the AI scorer's prompt
(`AIScorer._build_prompt`, ai_scorer.py line 58):
`truncate(description or "No description available", 3000)`. -/
def descTruncated (description : Option String) : String :=
  truncate (match description with
            | some d => if d.isEmpty then "No description available" else d
            | none => "No description available") 3000

/-! ## keyword_scorer.py -/

/-- Python substring containment (`needle in hay`) on character lists. -/
def isSubstr (needle hay : List Char) : Bool :=
  hay.tails.any (fun t => needle.isPrefixOf t)

/-- Python substring containment (`needle in hay`) on strings. -/
def containsS (needle hay : String) : Bool := isSubstr needle.toList hay.toList

/-- Embeds `TITLE_SCORES` (keyword_scorer.py lines 11-30), in dict order. -/
def TITLE_SCORES : List (String × ℚ) :=
  [("level designer", 1), ("world designer", 1), ("senior level designer", 1),
   ("lead level designer", 1), ("senior world designer", 1), ("lead world designer", 1),
   ("principal level designer", 1), ("environment designer", 85/100),
   ("technical level designer", 85/100), ("technical designer", 6/10),
   ("game designer", 55/100), ("content designer", 5/10), ("quest designer", 45/100),
   ("encounter designer", 45/100), ("narrative designer", 3/10), ("systems designer", 3/10),
   ("combat designer", 6/10), ("multiplayer designer", 5/10)]

/-- Embeds `SENIORITY_SCORES` (keyword_scorer.py lines 32-50), in dict order. -/
def SENIORITY_SCORES : List (String × ℚ) :=
  [("principal", 1), ("staff", 95/100), ("senior", 1), ("lead", 1), ("sr.", 1),
   ("sr ", 1), ("director", 7/10), ("manager", 5/10), ("mid", 5/10), ("ii", 5/10),
   ("iii", 8/10), ("junior", 1/10), ("jr.", 1/10), ("jr ", 1/10), ("entry", 5/100),
   ("intern", 0), ("associate", 2/10)]

/-- Embeds `SKILL_KEYWORDS` (keyword_scorer.py lines 52-88), in list order. -/
def SKILL_KEYWORDS : List (String × ℚ) :=
  [("unreal engine", 1), ("unreal", 9/10), ("ue5", 1), ("ue4", 9/10),
   ("blueprints", 8/10), ("pcg", 7/10), ("procedural content generation", 8/10),
   ("open world", 9/10), ("open-world", 9/10), ("encounter design", 9/10),
   ("level blockout", 9/10), ("blockout", 8/10), ("greybox", 8/10),
   ("whitebox", 8/10), ("environmental storytelling", 85/100),
   ("combat design", 8/10), ("combat space", 85/100), ("player flow", 8/10),
   ("metrics", 5/10), ("readability", 6/10), ("dungeon", 8/10), ("mmo", 7/10),
   ("mmorpg", 75/100), ("rpg", 7/10), ("live service", 6/10), ("live-service", 6/10),
   ("pvp", 6/10), ("multiplayer", 5/10), ("narrative", 4/10), ("aaa", 7/10),
   ("lua", 5/10), ("python", 4/10), ("c#", 4/10), ("perforce", 4/10), ("jira", 3/10)]

/-- Insertion step of a stable insertion sort: `le a b` means `a` may be
placed before `b`. -/
def insertIns (le : α → α → Bool) (a : α) : List α → List α
  | [] => [a]
  | b :: bs => if le a b then a :: b :: bs else b :: insertIns le a bs

/-- Insertion sort with respect to the Boolean relation `le`; used to
model Python `list.sort(reverse=True)` and SQL `ORDER BY ... DESC`. -/
def sortL (le : α → α → Bool) : List α → List α
  | [] => []
  | a :: as => insertIns le a (sortL le as)

/-- The fragment of `CandidateProfile` (profile.py) that the keyword
scorer reads: `get_preferred_locations()` (= `locations["preferred"]`)
and `locations.get("acceptable", [])`. -/
structure CandidateProfile where
  preferred_locations : List String
  acceptable_locations : List String
deriving DecidableEq, Repr

/-- Python `max(a, b)` on rationals (kernel-reducible, unlike the
lattice `max`). -/
def pymax (a b : ℚ) : ℚ := if a ≤ b then b else a

/-- Python `min(a, b)` on rationals. -/
def pymin (a b : ℚ) : ℚ := if b ≤ a then b else a

/-- Embeds `KeywordScorer._score_title` (keyword_scorer.py lines 126-135). -/
def score_title (title : String) : ℚ :=
  let tl := lowerS title
  TITLE_SCORES.foldl (fun best kw => if containsS kw.1 tl then pymax best kw.2 else best) 0

/-- Embeds `KeywordScorer._score_seniority` (keyword_scorer.py lines 137-146):
scans `(title + " " + description[:500]).lower()`, starting from the
mid-level default `0.5` and taking the `max` with each matched marker's
table weight. -/
def score_seniority (title : String) (description : Option String) : ℚ :=
  let text := lowerS (title ++ " " ++
    (match description with
     | some d => if d.isEmpty then "" else String.mk (d.toList.take 500)
     | none => ""))
  SENIORITY_SCORES.foldl (fun best kw => if containsS kw.1 text then pymax best kw.2 else best) (1/2)

/-- Embeds `KeywordScorer._score_skills` (keyword_scorer.py lines 148-171). -/
def score_skills (description : String) : ℚ :=
  if description.isEmpty then 3/10
  else
    let dl := lowerS description
    let matched := (SKILL_KEYWORDS.filter (fun kw => containsS kw.1 dl)).map (fun kw => kw.2)
    if matched.isEmpty then 1/10
    else
      let top := (sortL (fun a b => decide (b ≤ a)) matched).take 10
      let avg := top.sum / (top.length : ℚ)
      let bonus := pymin (1/5 : ℚ) ((matched.length : ℚ) * (1/50))
      pymin 1 (avg + bonus)

/-- Embeds `KeywordScorer._score_location` (keyword_scorer.py lines 173-194). -/
def score_location (profile : CandidateProfile) (location : Option String) (is_remote : Bool) : ℚ :=
  if is_remote then 1
  else
    match location with
    | none => 1/2
    | some loc =>
      if loc.isEmpty then 1/2
      else
        let ll := lowerS loc
        if (profile.preferred_locations.map lowerS).any
            (fun p => containsS p ll || containsS ll p) then 1
        else if (profile.acceptable_locations.map lowerS).any
            (fun a => containsS a ll || containsS ll a) then 7/10
        else 1/5

/-- Round half-up to an integer: `⌊x + 1/2⌋`, written with explicit
numerator/denominator arithmetic so the kernel can evaluate it. -/
def qRound (x : ℚ) : ℤ := Int.fdiv (x.num * 2 + x.den) (2 * x.den)

/-- Python `"%.2f"`-style formatting continued: digits of the rounded
value (the scores formatted here are nonnegative). -/
def fmt2 (q : ℚ) : String :=
  let n : ℤ := qRound (q * 100)
  toString (n / 100) ++ "." ++ (if n % 100 < 10 then "0" else "") ++ toString (n % 100)

/-- Embeds `KeywordScorer.score_job` (keyword_scorer.py lines 97-124): weighted
combination 0.35/0.20/0.30/0.15 of the four sub-scores, clamped to
`[0,1]`, plus the fixed-format reasoning string. -/
def keyword_score_job (profile : CandidateProfile) (title : String)
    (description : Option String) (location : Option String) (is_remote : Bool) :
    ℚ × String :=
  let title_score := score_title title
  let seniority_score := score_seniority title description
  let skills_score := score_skills (description.getD "")
  let location_score := score_location profile location is_remote
  let combined := title_score * (35/100) + seniority_score * (20/100) +
    skills_score * (30/100) + location_score * (15/100)
  (pymax 0 (pymin 1 combined),
   "Title: " ++ fmt2 title_score ++ ", Seniority: " ++ fmt2 seniority_score ++
   ", Skills: " ++ fmt2 skills_score ++ ", Location: " ++ fmt2 location_score)

/-! ## scorer_manager.py -/

/-- The configuration state of `ScorerManager.__init__`
(scorer_manager.py lines 17-37): engine mode, AI gate threshold,
combination weights, whether the AI scorer is available
(`AIScorer.is_available()`: a credential is configured), and the
candidate profile. -/
structure ScorerManager where
  engine : String
  min_keyword_for_ai : ℚ
  ai_weight : ℚ
  keyword_weight : ℚ
  ai_available : Bool
  profile : CandidateProfile
deriving DecidableEq, Repr

/-- Embeds `self.use_ai` (scorer_manager.py line 32):
`engine in ("ai", "hybrid") and ai_scorer.is_available()`. -/
def use_ai (m : ScorerManager) : Bool :=
  (m.engine == "ai" || m.engine == "hybrid") && m.ai_available

/-- The combined-score computation of `ScorerManager.score_job`
(scorer_manager.py lines 61-66): `ai_weight*ai + keyword_weight*kw` when
an AI score is present, the keyword score alone otherwise. -/
def combinedScore (aiW kwW : ℚ) (ai : Option ℚ) (kw : ℚ) : ℚ :=
  match ai with
  | some a => aiW * a + kwW * kw
  | none => kw

/-- The reasoning string of `ScorerManager.score_job` (scorer_manager.py
lines 64 and 67). -/
def combinedReasoning (ai : Option ℚ) (aiR kwR : String) : String :=
  match ai with
  | some _ => "AI: " ++ aiR ++ " | Keywords: " ++ kwR
  | none => "Keywords: " ++ kwR

/-- The full outcome of one `ScorerManager.score_job` scoring
computation, instrumented with `aiCalls`: the number of calls made to
`AIScorer.score_job` while producing it. -/
structure ScoreOutcome where
  kw_score : ℚ
  kw_reasoning : String
  ai_score : Option ℚ
  ai_reasoning : String
  combined : ℚ
  reasoning : String
  aiCalls : ℕ
deriving Repr

/-- The scoring computation of `ScorerManager.score_job`
(scorer_manager.py lines 39-67), with the AI scorer supplied as a
function `aiScorer title company location description`.  The AI branch
runs only under the cost-control gate of line 56:
`use_ai and kw_score >= min_keyword_for_ai`. -/
def score_compute (m : ScorerManager)
    (aiScorer : String → String → Option String → Option String → ℚ × String)
    (title company : String) (location : Option String) (is_remote : Bool)
    (description : Option String) : ScoreOutcome :=
  let kwr := keyword_score_job m.profile title description location is_remote
  let step :=
    if use_ai m && decide (m.min_keyword_for_ai ≤ kwr.1) then
      let sr := aiScorer title company location description
      (some sr.1, sr.2, 1)
    else (none, "", 0)
  { kw_score := kwr.1, kw_reasoning := kwr.2,
    ai_score := step.1, ai_reasoning := step.2.1,
    combined := combinedScore m.ai_weight m.keyword_weight step.1 kwr.1,
    reasoning := combinedReasoning step.1 step.2.1 kwr.2,
    aiCalls := step.2.2 }

/-! ## db/models.py and db/repository.py

The SQLite database is modelled as explicit state: the `jobs` and
`notifications` tables are lists of rows (in insertion order, as SQLite
scans them absent an ORDER BY), and the AUTOINCREMENT counters are
carried explicitly.  Every repository operation is a pure function from
a `Db` to a `Db` (each Python method commits before returning, so one
operation is one state transition).
-/

/-- A row of the `jobs` table (models.py lines 12-57).  `external_id` is
a `String` (the `ScrapedJob` dataclass declares it `str`, so inserts
from `upsert_job` never write SQL NULL there); schema defaults:
`is_active = 1`, `user_status = 'new'`. -/
structure JobRow where
  id : ℕ
  external_id : String
  source : String
  url : String
  url_hash : String
  title : String
  company : String
  location : Option String
  is_remote : Bool
  description : Option String
  description_raw : Option String
  employment_type : Option String
  salary_min : Option ℚ
  salary_max : Option ℚ
  salary_currency : Option String
  query_group : String
  date_posted : Option String
  date_scraped : String
  date_updated : Option String
  is_active : Bool
  ai_score : Option ℚ
  keyword_score : Option ℚ
  combined_score : Option ℚ
  score_reasoning : Option String
  user_status : String
  user_notes : Option String
  title_company_hash : String
deriving DecidableEq, Repr

/-- A row of the `notifications` table (models.py lines 67-75). -/
structure NotificationRow where
  id : ℕ
  job_id : ℕ
  channel : String
  sent_at : String
  status : String
  error_message : Option String
deriving DecidableEq, Repr

/-- The database state: the two tables the claims concern, plus the
AUTOINCREMENT counters. -/
structure Db where
  jobs : List JobRow
  notifications : List NotificationRow
  nextJobId : ℕ
  nextNotifId : ℕ
deriving DecidableEq, Repr

/-- The `ScrapedJob` dataclass (scrapers/base.py lines 8-29). -/
structure ScrapedJob where
  external_id : String
  source : String
  url : String
  title : String
  company : String
  location : Option String := none
  is_remote : Bool := false
  description : Option String := none
  description_raw : Option String := none
  employment_type : Option String := none
  salary_min : Option ℚ := none
  salary_max : Option ℚ := none
  salary_currency : Option String := none
  date_posted : Option String := none
  query_group : String := "priority"
  date_scraped : String
deriving DecidableEq, Repr

/-- The row built by the INSERT of `upsert_job` (repository.py lines
56-76), with the schema defaults for the columns the INSERT omits. -/
def newJobRow (id : ℕ) (job : ScrapedJob) (u tc now : String) : JobRow :=
  { id, external_id := job.external_id, source := job.source, url := job.url,
    url_hash := u, title := job.title, company := job.company,
    location := job.location, is_remote := job.is_remote,
    description := job.description, description_raw := job.description_raw,
    employment_type := job.employment_type, salary_min := job.salary_min,
    salary_max := job.salary_max, salary_currency := job.salary_currency,
    query_group := job.query_group, date_posted := job.date_posted,
    date_scraped := job.date_scraped, date_updated := some now,
    is_active := true, ai_score := none, keyword_score := none,
    combined_score := none, score_reasoning := none, user_status := "new",
    user_notes := none, title_company_hash := tc }

/-- Does inserting `r` violate a uniqueness constraint of the `jobs`
table (models.py lines 55-56): `UNIQUE(url_hash)` or
`UNIQUE(source, external_id)` (the latter with non-NULL values, which is
what `upsert_job` always inserts)?  This is what raises
`sqlite3.IntegrityError` on line 79 of repository.py. -/
def insertViolates (db : Db) (r : JobRow) : Bool :=
  db.jobs.any (fun x => x.url_hash == r.url_hash) ||
  db.jobs.any (fun x => x.source == r.source && x.external_id == r.external_id)

/-- The UPDATE of the found-branch of `upsert_job` (repository.py lines
36-39): `SET date_updated = ?, is_active = 1`. -/
def updRow (now : String) (x : JobRow) : JobRow :=
  { x with date_updated := some now, is_active := true }

/-- The insert path of `upsert_job` (repository.py lines 43-86): the
code that runs when the lookup by URL fingerprint found nothing.  (The
cross-source duplicate check of lines 44-54 only logs; it changes no
state and is elided.)  If the INSERT violates a uniqueness constraint,
the `IntegrityError` handler rolls back and re-queries by fingerprint,
returning `(row.id, False)` — or `(0, False)` when even the re-query
finds nothing. -/
def upsert_insert (db : Db) (job : ScrapedJob) (u tc now : String) : Db × ℕ × Bool :=
  if insertViolates db (newJobRow db.nextJobId job u tc now) then
    match db.jobs.find? (fun r => r.url_hash == u) with
    | some r => (db, r.id, false)
    | none => (db, 0, false)
  else
    ({ db with jobs := db.jobs ++ [newJobRow db.nextJobId job u tc now],
               nextJobId := db.nextJobId + 1 },
     db.nextJobId, true)

/-- Embeds `JobRepository.upsert_job` (repository.py lines 21-86), with the
current timestamp `now` passed explicitly.  Returns the new database
state together with `(job_id, is_new)`. -/
def upsert_job (db : Db) (job : ScrapedJob) (now : String) : Db × ℕ × Bool :=
  match db.jobs.find? (fun r => r.url_hash == url_hash job.url) with
  | some r =>
    ({ db with jobs := db.jobs.map (fun x => if x.id == r.id then updRow now x else x) },
     r.id, false)
  | none =>
    upsert_insert db job (url_hash job.url) (title_company_hash job.title job.company) now

/-- Embeds `JobRepository.update_scores` (repository.py lines 99-130): partial
update — a `none` argument leaves the corresponding column untouched. -/
def update_scores (db : Db) (job_id : ℕ)
    (keyword_score ai_score combined_score : Option ℚ)
    (score_reasoning : Option String) : Db :=
  { db with jobs := db.jobs.map (fun r =>
      if r.id == job_id then
        { r with keyword_score := keyword_score.or r.keyword_score,
                 ai_score := ai_score.or r.ai_score,
                 combined_score := combined_score.or r.combined_score,
                 score_reasoning := score_reasoning.or r.score_reasoning }
      else r) }

/-- The WHERE clause of `JobRepository.get_jobs` (repository.py lines
149-164): active rows; when `min_score > 0`, the filter is
`(combined_score >= ? OR combined_score IS NULL)` — an unscored row
passes; the optional status/source/group filters are exact matches. -/
def getJobsPred (min_score : ℚ) (status source group : Option String) (j : JobRow) : Bool :=
  j.is_active &&
  (if 0 < min_score then
      (match j.combined_score with
       | some s => decide (min_score ≤ s)
       | none => true)
    else true) &&
  (match status with | some st => j.user_status == st | none => true) &&
  (match source with | some src => j.source == src | none => true) &&
  (match group with | some g => j.query_group == g | none => true)

/-- Embeds `ORDER BY COALESCE(combined_score, 0) DESC` (repository.py line
165), as a Boolean comparison for `sortL`. -/
def scoreDescLe (a b : JobRow) : Bool :=
  decide (b.combined_score.getD 0 ≤ a.combined_score.getD 0)

/-- Embeds `JobRepository.get_jobs` (repository.py lines 140-168): filter,
order by coalesced combined score descending, `LIMIT limit`. -/
def get_jobs (db : Db) (min_score : ℚ) (status source group : Option String)
    (limit : ℕ) : List JobRow :=
  (sortL scoreDescLe (db.jobs.filter (getJobsPred min_score status source group))).take limit

/-- The NOT IN subquery of `get_unnotified_jobs` (repository.py lines
262-264): does a receipt with status `'sent'` exist for this job id on
this channel? -/
def sentFor (db : Db) (channel : String) (jid : ℕ) : Bool :=
  db.notifications.any (fun n => n.job_id == jid && n.channel == channel && n.status == "sent")

/-- The WHERE clause of `get_unnotified_jobs` (repository.py lines
260-264): `combined_score >= ?` (SQL three-valued logic: a NULL score
never satisfies the comparison), active, and no `'sent'` receipt for the
channel. -/
def unnotifiedPred (db : Db) (channel : String) (min_score : ℚ) (j : JobRow) : Bool :=
  (match j.combined_score with
   | some s => decide (min_score ≤ s)
   | none => false) &&
  j.is_active && !(sentFor db channel j.id)

/-- Embeds `JobRepository.get_unnotified_jobs` (repository.py lines 256-267). -/
def get_unnotified_jobs (db : Db) (channel : String) (min_score : ℚ) : List JobRow :=
  sortL scoreDescLe (db.jobs.filter (unnotifiedPred db channel min_score))

/-- Embeds `JobRepository.record_notification` (repository.py lines 269-274):
an INSERT appending one receipt row, with the `datetime('now')`
timestamp passed explicitly. -/
def record_notification (db : Db) (job_id : ℕ) (channel status : String)
    (error : Option String) (sentAt : String) : Db :=
  { db with
    notifications := db.notifications ++
      [{ id := db.nextNotifId, job_id, channel, sent_at := sentAt, status,
         error_message := error }],
    nextNotifId := db.nextNotifId + 1 }

/-- One `record_notification` call's arguments, for iterating dispatcher
runs. -/
structure RecordCall where
  job_id : ℕ
  channel : String
  status : String
  error : Option String
  sent_at : String
deriving DecidableEq, Repr

/-- A sequence of further `record_notification` calls (any number of
dispatcher runs recording any outcomes). -/
def recordMany (db : Db) (calls : List RecordCall) : Db :=
  calls.foldl (fun d c => record_notification d c.job_id c.channel c.status c.error c.sent_at) db

/-- Embeds `ScorerManager.score_job` (scorer_manager.py lines 39-81) end to
end: compute the scores for the row `job` and persist them through
`update_scores` (keyword score, AI score if any, combined score and
reasoning — lines 69-75). -/
def score_job (m : ScorerManager)
    (aiScorer : String → String → Option String → Option String → ℚ × String)
    (db : Db) (job : JobRow) : Db :=
  let o := score_compute m aiScorer job.title job.company job.location job.is_remote job.description
  update_scores db job.id (some o.kw_score) o.ai_score (some o.combined) (some o.reasoning)

/-- Embeds `ScorerManager.score_job` with a fallible AI scorer: `aiScorer` may
raise (return `.error`).  The only database write, `update_scores`, is
the final step, so a raise anywhere during scoring leaves the database
unchanged — which is what the `try/except` of `score_batch` relies on. -/
def score_jobE (m : ScorerManager)
    (aiScorer : String → String → Option String → Option String → Except String (ℚ × String))
    (db : Db) (job : JobRow) : Except String Db :=
  let kwr := keyword_score_job m.profile job.title job.description job.location job.is_remote
  let aiStep : Except String (Option ℚ × String) :=
    if use_ai m && decide (m.min_keyword_for_ai ≤ kwr.1) then
      (aiScorer job.title job.company job.location job.description).map
        (fun sr => (some sr.1, sr.2))
    else .ok (none, "")
  aiStep.map (fun ai =>
    update_scores db job.id (some kwr.1) ai.1
      (some (combinedScore m.ai_weight m.keyword_weight ai.1 kwr.1))
      (some (combinedReasoning ai.1 ai.2 kwr.2)))

/-- One iteration of the loop of `ScorerManager.score_batch`
(scorer_manager.py lines 86-90): `try: score_job(job) except: log` — an
exception is caught and the database is left as it was. -/
def score_batch_step (m : ScorerManager)
    (aiScorer : String → String → Option String → Option String → Except String (ℚ × String))
    (d : Db) (j : JobRow) : Db :=
  match score_jobE m aiScorer d j with
  | .ok d' => d'
  | .error _ => d

/-- Embeds `ScorerManager.score_batch` (scorer_manager.py lines 83-95):
sequential processing of the supplied jobs in input order, each step
protected by the `try/except`. -/
def score_batch (m : ScorerManager)
    (aiScorer : String → String → Option String → Option String → Except String (ℚ × String))
    (db : Db) (jobs : List JobRow) : Db :=
  jobs.foldl (score_batch_step m aiScorer) db

/-! ## Helper lemmas -/

theorem mem_insertIns {le : α → α → Bool} {a x : α} {l : List α} :
    x ∈ insertIns le a l ↔ x = a ∨ x ∈ l := by
  induction l with
  | nil => simp [insertIns]
  | cons b bs ih =>
    simp only [insertIns]
    split
    · simp [or_comm, or_left_comm]
    · simp [ih, or_comm, or_left_comm]

theorem mem_sortL {le : α → α → Bool} {x : α} {l : List α} :
    x ∈ sortL le l ↔ x ∈ l := by
  induction l with
  | nil => simp [sortL]
  | cons a as ih => simp [sortL, mem_insertIns, ih]

/-! ## Fixtures: concrete inputs used by witnesses and counterexamples -/

/-- An empty candidate profile (no preferred or acceptable locations). -/
def profile0 : CandidateProfile := ⟨[], []⟩

/-- A hybrid-mode manager with the configuration defaults of
`ScorerManager.__init__`: gate `0.2`, weights `0.7`/`0.3`, AI scorer
available. -/
def manager0 : ScorerManager :=
  { engine := "hybrid", min_keyword_for_ai := 1/5, ai_weight := 7/10,
    keyword_weight := 3/10, ai_available := true, profile := profile0 }

/-- A pure AI scorer stub returning score `0.4`. -/
def aiConst : String → String → Option String → Option String → ℚ × String :=
  fun _ _ _ _ => (2/5, "stub")

/-! ## C6: the seniority sub-score on a junior-only input -/

/-- C6.  The claim states that for an input whose only matching seniority
marker is "junior" (table weight 0.1) the seniority sub-score is 0.1, not
0.5.  The code disagrees: `_score_seniority` starts `best_score` at the
mid-level default `0.5` and only ever takes `max` with matched marker
weights, so the matched weight `0.1` cannot lower the result — on the
title "Junior Level Designer" (no description) the only matching marker
is `("junior", 0.1)`, yet the sub-score is `0.5`. -/
theorem score_seniority_junior_gives_half :
    score_seniority "Junior Level Designer" none = 1/2 ∧
    SENIORITY_SCORES.filter
      (fun kw => containsS kw.1 (lowerS ("Junior Level Designer" ++ " " ++ ""))) =
      [("junior", 1/10)] ∧
    (1/2 : ℚ) ≠ 1/10 := by
  refine ⟨by with_unfolding_all rfl, by with_unfolding_all rfl, by norm_num⟩

/-! ## C4: the AI cost-control gate -/

/-- C4.  In every configuration, `score_job` invokes the AI scorer for a
posting only if AI scoring is enabled and the posting's keyword score
meets the configured minimum threshold (`kw_score >= min_keyword_for_ai`,
scorer_manager.py line 56); for every posting whose keyword score is
below the gate, the AI scorer is never invoked (`aiCalls = 0`). -/
theorem ai_gate (m : ScorerManager)
    (ai : String → String → Option String → Option String → ℚ × String)
    (title company : String) (location : Option String) (is_remote : Bool)
    (description : Option String) :
    ((score_compute m ai title company location is_remote description).kw_score <
        m.min_keyword_for_ai →
      (score_compute m ai title company location is_remote description).aiCalls = 0) ∧
    ((score_compute m ai title company location is_remote description).aiCalls ≠ 0 →
      use_ai m = true ∧
      m.min_keyword_for_ai ≤
        (score_compute m ai title company location is_remote description).kw_score) := by
  unfold score_compute
  set kwr := keyword_score_job m.profile title description location is_remote with hkwr
  by_cases h : (use_ai m && decide (m.min_keyword_for_ai ≤ kwr.1)) = true
  · have h2 := h
    rw [Bool.and_eq_true, decide_eq_true_eq] at h2
    constructor
    · intro hlt
      exact absurd h2.2 (not_le.2 hlt)
    · intro _
      exact h2
  · constructor
    · intro _
      simp [h]
    · intro hne
      exact absurd (by simp [h]) hne

/-- C4 witness: on a concrete posting whose keyword score is `0.16`,
below the default gate `0.2`, the theorem yields `aiCalls = 0`. -/
theorem ai_gate_witness :
    (score_compute manager0 aiConst "x" "c" (some "zzz") false (some "q")).kw_score <
      manager0.min_keyword_for_ai ∧
    (score_compute manager0 aiConst "x" "c" (some "zzz") false (some "q")).aiCalls = 0 := by
  have h : (score_compute manager0 aiConst "x" "c" (some "zzz") false (some "q")).kw_score <
      manager0.min_keyword_for_ai := of_decide_eq_true (by with_unfolding_all rfl)
  exact ⟨h, (ai_gate manager0 aiConst "x" "c" (some "zzz") false (some "q")).1 h⟩

/-! ## C9: batch isolation -/

/-- C9.  `score_batch` processes the supplied postings sequentially in
input order: for any decomposition of the batch around a posting `j`,
the run is the left part, then the step for `j`, then the right part;
and an exception raised while scoring `j` is caught and leaves the
database unchanged, so every other posting in the batch is still
attempted (the right part runs on the recovered state). -/
theorem score_batch_isolation (m : ScorerManager)
    (aiE : String → String → Option String → Option String → Except String (ℚ × String))
    (db : Db) (l1 : List JobRow) (j : JobRow) (l2 : List JobRow) :
    score_batch m aiE db (l1 ++ j :: l2) =
      score_batch m aiE (score_batch_step m aiE (score_batch m aiE db l1) j) l2 ∧
    (∀ (d : Db) (e : String), score_jobE m aiE d j = .error e →
      score_batch_step m aiE d j = d) := by
  constructor
  · simp [score_batch, List.foldl_append]
  · intro d e h
    simp [score_batch_step, h]

/-- A minimal active job row with a given id and title, no description,
no location, unscored. -/
def plainRow (id : ℕ) (title : String) : JobRow :=
  { id, external_id := "", source := "s", url := "", url_hash := "", title,
    company := "c", location := none, is_remote := false, description := none,
    description_raw := none, employment_type := none, salary_min := none,
    salary_max := none, salary_currency := none, query_group := "priority",
    date_posted := none, date_scraped := "t", date_updated := none,
    is_active := true, ai_score := none, keyword_score := none,
    combined_score := none, score_reasoning := none, user_status := "new",
    user_notes := none, title_company_hash := "" }

/-- A fallible AI scorer stub raising exactly on the posting titled
"Boom". -/
def aiBoom : String → String → Option String → Option String → Except String (ℚ × String) :=
  fun t _ _ _ => if t == "Boom" then .error "boom" else .ok (2/5, "stub")

/-- A batch of five postings; every title clears the default keyword
gate, and the third triggers the AI scorer's error. -/
def batchJobs : List JobRow :=
  [plainRow 1 "Level Designer", plainRow 2 "World Designer", plainRow 3 "Boom",
   plainRow 4 "Game Designer", plainRow 5 "Quest Designer"]

/-- The database holding the five batch postings. -/
def batchDb : Db := ⟨batchJobs, [], 6, 1⟩

/-- C9 witness: on the concrete 5-posting batch whose third item raises,
the failing step leaves the database unchanged (by the theorem), and
running the batch still scores postings 1, 2, 4 and 5 — only posting 3
remains unscored. -/
theorem score_batch_isolation_witness :
    score_batch_step manager0 aiBoom batchDb (plainRow 3 "Boom") = batchDb ∧
    ((score_batch manager0 aiBoom batchDb batchJobs).jobs.map
       (fun r => r.combined_score.isSome)) = [true, true, false, true, true] :=
  ⟨(score_batch_isolation manager0 aiBoom batchDb [] (plainRow 3 "Boom") []).2 batchDb "boom"
     (by with_unfolding_all rfl),
   by with_unfolding_all rfl⟩

/-! ## C5: the combined score -/

/-- C5.  For `score_job`: the persisted row carries exactly the computed
keyword score, AI score (when computed), combined score and reasoning;
when an AI score was computed the combined score is
`ai_weight*ai + keyword_weight*kw`; when it was not (gate not cleared,
AI disabled or unavailable — precisely `¬(use_ai ∧ gate ≤ kw)`) the
combined score is the keyword score exactly and the reasoning is the
keyword-only string; and at the spec's example values the combination
gives `0.7*0.4 + 0.3*0.8 = 0.52`. -/
theorem score_job_combined (m : ScorerManager)
    (ai : String → String → Option String → Option String → ℚ × String)
    (db : Db) (job : JobRow) (o : ScoreOutcome)
    (h : score_compute m ai job.title job.company job.location job.is_remote job.description = o) :
    ((score_job m ai db job).jobs = db.jobs.map (fun r =>
        if r.id == job.id then
          { r with keyword_score := some o.kw_score,
                   ai_score := o.ai_score.or r.ai_score,
                   combined_score := some o.combined,
                   score_reasoning := some o.reasoning }
        else r)) ∧
    (∀ a : ℚ, o.ai_score = some a →
        o.combined = m.ai_weight * a + m.keyword_weight * o.kw_score) ∧
    (o.ai_score = none →
        o.combined = o.kw_score ∧ o.reasoning = "Keywords: " ++ o.kw_reasoning) ∧
    (o.ai_score = none ↔ ¬(use_ai m = true ∧
        m.min_keyword_for_ai ≤ o.kw_score)) ∧
    combinedScore (7/10) (3/10) (some (2/5)) (4/5) = 13/25 := by
  subst h
  by_cases hb : (use_ai m && decide (m.min_keyword_for_ai ≤
      (keyword_score_job m.profile job.title job.description job.location job.is_remote).1)) = true
  · have hb2 := hb
    rw [Bool.and_eq_true, decide_eq_true_eq] at hb2
    refine ⟨?_, ?_, ?_, ?_, by with_unfolding_all rfl⟩
    · simp [score_job, update_scores, score_compute, hb, Option.or]
    · intro a ha
      simp only [score_compute, hb, if_true] at ha ⊢
      cases ha
      simp [combinedScore]
    · intro ha
      simp [score_compute, hb] at ha
    · simp [score_compute, hb, hb2]
  · refine ⟨?_, ?_, ?_, ?_, by with_unfolding_all rfl⟩
    · simp [score_job, update_scores, score_compute, hb, Option.or]
    · intro a ha
      simp [score_compute, hb] at ha
    · intro _
      simp [score_compute, hb, combinedScore, combinedReasoning]
    · rw [Bool.and_eq_true, decide_eq_true_eq] at hb
      simp [score_compute, hb]

/-- A job row clearing the gate under `manager0`. -/
def jobLD : JobRow := plainRow 7 "Level Designer"

/-- A keyword-only manager (AI disabled by engine mode). -/
def managerKW : ScorerManager :=
  { engine := "keyword", min_keyword_for_ai := 1/5, ai_weight := 7/10,
    keyword_weight := 3/10, ai_available := true, profile := profile0 }

/-- C5 witness: under the hybrid manager the AI score `0.4` is combined
as `0.7*0.4 + 0.3*kw`, and under the keyword-only manager the combined
score equals the keyword score with keyword-only reasoning. -/
theorem score_job_combined_witness :
    ((score_compute manager0 aiConst jobLD.title jobLD.company jobLD.location
        jobLD.is_remote jobLD.description).combined =
      manager0.ai_weight * (2/5) +
        manager0.keyword_weight *
          (score_compute manager0 aiConst jobLD.title jobLD.company jobLD.location
            jobLD.is_remote jobLD.description).kw_score) ∧
    ((score_compute managerKW aiConst jobLD.title jobLD.company jobLD.location
        jobLD.is_remote jobLD.description).combined =
      (score_compute managerKW aiConst jobLD.title jobLD.company jobLD.location
        jobLD.is_remote jobLD.description).kw_score) :=
  ⟨(score_job_combined manager0 aiConst batchDb jobLD _ rfl).2.1 (2/5)
      (by with_unfolding_all rfl),
   ((score_job_combined managerKW aiConst batchDb jobLD _ rfl).2.2.1
      (by with_unfolding_all rfl)).1⟩

/-! ## C10: unscored rows and the two minScore filters -/

/-- C10.  `get_unnotified_jobs` never returns a row whose combined score
is NULL (every returned row has a score `≥ minScore`), whereas the
general `get_jobs` query lets an unscored active row pass its
`min_score` filter (its WHERE clause is satisfied, and on a database
holding such a row with a positive limit, `get_jobs` returns it). -/
theorem unnotified_excludes_null_score (db : Db) (channel : String) (ms : ℚ) :
    (∀ r ∈ get_unnotified_jobs db channel ms,
       ∃ s : ℚ, r.combined_score = some s ∧ ms ≤ s) ∧
    (∀ (ms' : ℚ) (r : JobRow), 0 < ms' → r.is_active = true →
       r.combined_score = none → getJobsPred ms' none none none r = true) ∧
    (∀ (ms' : ℚ) (r : JobRow) (notifs : List NotificationRow) (n1 n2 lim : ℕ),
       0 < ms' → r.is_active = true → r.combined_score = none →
       r ∈ get_jobs ⟨[r], notifs, n1, n2⟩ ms' none none none (lim + 1)) := by
  refine ⟨?_, ?_, ?_⟩
  · intro r hr
    rw [get_unnotified_jobs, mem_sortL, List.mem_filter] at hr
    have hp := hr.2
    rw [unnotifiedPred, Bool.and_eq_true, Bool.and_eq_true] at hp
    cases hs : r.combined_score with
    | none => rw [hs] at hp; simp at hp
    | some s =>
      refine ⟨s, rfl, ?_⟩
      have := hp.1.1
      rw [hs] at this
      exact of_decide_eq_true this
  · intro ms' r hms hact hnull
    rw [getJobsPred, hnull, hact]
    simp [hms]
  · intro ms' r notifs n1 n2 lim hms hact hnull
    have hp : getJobsPred ms' none none none r = true := by
      rw [getJobsPred, hnull, hact]
      simp [hms]
    rw [get_jobs]
    simp only [List.filter, hp]
    simp [sortL, insertIns]

/-- C10 witness: on a concrete database holding one active unscored row,
`get_unnotified_jobs` returns no NULL-scored row while `get_jobs` with
`min_score = 0.5` returns the row. -/
theorem unnotified_excludes_null_score_witness :
    (∀ r ∈ get_unnotified_jobs ⟨[plainRow 1 "t"], [], 2, 1⟩ "discord" (1/2),
       ∃ s : ℚ, r.combined_score = some s ∧ (1/2 : ℚ) ≤ s) ∧
    plainRow 1 "t" ∈ get_jobs ⟨[plainRow 1 "t"], [], 2, 1⟩ (1/2) none none none 20 :=
  ⟨(unnotified_excludes_null_score ⟨[plainRow 1 "t"], [], 2, 1⟩ "discord" (1/2)).1,
   (unnotified_excludes_null_score ⟨[plainRow 1 "t"], [], 2, 1⟩ "discord" (1/2)).2.2
     (1/2) (plainRow 1 "t") [] 2 1 19 (by norm_num) rfl rfl⟩

/-! ## C3: notification idempotency -/

/-- A `'sent'` receipt for `(job, channel)` exists in the store. -/
def hasSent (db : Db) (jid : ℕ) (channel : String) : Prop :=
  ∃ n ∈ db.notifications, n.job_id = jid ∧ n.channel = channel ∧ n.status = "sent"

theorem hasSent_record {db : Db} {jid : ℕ} {channel : String} (h : hasSent db jid channel)
    (j' : ℕ) (c' s' : String) (e' : Option String) (t' : String) :
    hasSent (record_notification db j' c' s' e' t') jid channel := by
  obtain ⟨n, hn, hprop⟩ := h
  exact ⟨n, List.mem_append_left _ hn, hprop⟩

theorem hasSent_recordMany {db : Db} {jid : ℕ} {channel : String}
    (h : hasSent db jid channel) (calls : List RecordCall) :
    hasSent (recordMany db calls) jid channel := by
  induction calls generalizing db with
  | nil => exact h
  | cons c cs ih => exact ih (hasSent_record h c.job_id c.channel c.status c.error c.sent_at)

theorem sentFor_of_hasSent {db : Db} {jid : ℕ} {channel : String}
    (h : hasSent db jid channel) : sentFor db channel jid = true := by
  obtain ⟨n, hn, h1, h2, h3⟩ := h
  rw [sentFor, List.any_eq_true]
  exact ⟨n, hn, by simp [h1, h2, h3]⟩

/-- C3.  Once a `'sent'` receipt exists for `(job, channel)`, the job
never appears in `get_unnotified_jobs` for that channel again, no matter
how many further receipts are recorded; a job whose receipts for the
channel are all non-`'sent'` (e.g. only `'failed'`) but which is active
with score `≥ minScore` still appears; and `record_notification` always
appends a fresh receipt row, never overwriting the existing history. -/
theorem notification_idempotency (db : Db) (jid : ℕ) (channel : String) (ms : ℚ) :
    (∀ calls : List RecordCall, hasSent db jid channel →
       ∀ r ∈ get_unnotified_jobs (recordMany db calls) channel ms, r.id ≠ jid) ∧
    (∀ r ∈ db.jobs, ∀ s : ℚ, r.combined_score = some s → ms ≤ s → r.is_active = true →
       (∀ n ∈ db.notifications, n.job_id = r.id → n.channel = channel → n.status ≠ "sent") →
       r ∈ get_unnotified_jobs db channel ms) ∧
    (∀ (j' : ℕ) (s' : String) (e' : Option String) (t' : String),
       (record_notification db j' channel s' e' t').notifications =
         db.notifications ++
           [{ id := db.nextNotifId, job_id := j', channel, sent_at := t', status := s',
              error_message := e' }]) := by
  refine ⟨?_, ?_, ?_⟩
  · intro calls hsent r hr hrid
    rw [get_unnotified_jobs, mem_sortL, List.mem_filter] at hr
    have hp := hr.2
    rw [unnotifiedPred, Bool.and_eq_true, Bool.and_eq_true] at hp
    have hfor : sentFor (recordMany db calls) channel r.id = true := by
      rw [hrid]
      exact sentFor_of_hasSent (hasSent_recordMany hsent calls)
    rw [hfor] at hp
    simp at hp
  · intro r hr s hscore hms hact hnone
    rw [get_unnotified_jobs, mem_sortL, List.mem_filter]
    refine ⟨hr, ?_⟩
    rw [unnotifiedPred, hscore, hact]
    have hfor : sentFor db channel r.id = false := by
      rw [sentFor, List.any_eq_false]
      intro n hn
      intro hcontra
      rw [Bool.and_eq_true, Bool.and_eq_true] at hcontra
      exact hnone n hn (by simpa using hcontra.1.1) (by simpa using hcontra.1.2)
        (by simpa using hcontra.2)
    rw [hfor]
    simp [hms]
  · intro j' s' e' t'
    rfl

/-- The job row and receipts used by the C3 witness: job 1 is scored 0.9
and active; on channel "discord" it has one `'sent'` receipt; job 2 is
scored 0.9 and active with only a `'failed'` receipt. -/
def notifDb : Db :=
  { jobs := [{ plainRow 1 "a" with combined_score := some (9/10) },
             { plainRow 2 "b" with combined_score := some (9/10) }],
    notifications :=
      [{ id := 1, job_id := 1, channel := "discord", sent_at := "t1", status := "sent",
         error_message := none },
       { id := 2, job_id := 2, channel := "discord", sent_at := "t2", status := "failed",
         error_message := some "http 500" }],
    nextJobId := 3, nextNotifId := 3 }

/-- C3 witness: on the concrete store, after one further (failed)
receipt is recorded job 1 still never reappears on "discord"; job 2,
with only a failed receipt, does appear; and the recorded receipt was
appended to the history. -/
theorem notification_idempotency_witness :
    (∀ r ∈ get_unnotified_jobs
        (recordMany notifDb [⟨1, "discord", "failed", some "retry", "t3"⟩]) "discord" (1/2),
       r.id ≠ 1) ∧
    ({ plainRow 2 "b" with combined_score := some (9/10) } ∈
       get_unnotified_jobs notifDb "discord" (1/2)) ∧
    ((record_notification notifDb 5 "discord" "sent" none "t9").notifications =
       notifDb.notifications ++
         [{ id := 3, job_id := 5, channel := "discord", sent_at := "t9", status := "sent",
            error_message := none }]) :=
  ⟨(notification_idempotency notifDb 1 "discord" (1/2)).1
      [⟨1, "discord", "failed", some "retry", "t3"⟩]
      ⟨{ id := 1, job_id := 1, channel := "discord", sent_at := "t1", status := "sent",
         error_message := none }, by simp [notifDb], rfl, rfl, rfl⟩,
   (notification_idempotency notifDb 2 "discord" (1/2)).2.1
      { plainRow 2 "b" with combined_score := some (9/10) } (by simp [notifDb])
      (9/10) rfl (by norm_num) rfl
      (of_decide_eq_true (by with_unfolding_all rfl)),
   (notification_idempotency notifDb 5 "discord" (1/2)).2.2 5 "sent" none "t9"⟩

/-! ## Branch lemmas for `upsert_job` -/

theorem upsert_job_found {db : Db} {job : ScrapedJob} {now : String} {r : JobRow}
    (h : db.jobs.find? (fun x => x.url_hash == url_hash job.url) = some r) :
    upsert_job db job now =
      ({ db with jobs := db.jobs.map (fun x => if x.id == r.id then updRow now x else x) },
       r.id, false) := by
  unfold upsert_job
  rw [h]

theorem upsert_job_not_found {db : Db} {job : ScrapedJob} {now : String}
    (h : db.jobs.find? (fun x => x.url_hash == url_hash job.url) = none) :
    upsert_job db job now =
      upsert_insert db job (url_hash job.url) (title_company_hash job.title job.company) now := by
  unfold upsert_job
  rw [h]

theorem upsert_insert_ok {db : Db} {job : ScrapedJob} {u tc now : String}
    (h : insertViolates db (newJobRow db.nextJobId job u tc now) = false) :
    upsert_insert db job u tc now =
      ({ db with jobs := db.jobs ++ [newJobRow db.nextJobId job u tc now],
                 nextJobId := db.nextJobId + 1 },
       db.nextJobId, true) := by
  unfold upsert_insert
  rw [h]
  simp

theorem upsert_insert_conflict_found {db : Db} {job : ScrapedJob} {u tc now : String}
    {r : JobRow} (hv : insertViolates db (newJobRow db.nextJobId job u tc now) = true)
    (hf : db.jobs.find? (fun x => x.url_hash == u) = some r) :
    upsert_insert db job u tc now = (db, r.id, false) := by
  unfold upsert_insert
  rw [hv, hf]
  simp

theorem upsert_insert_conflict_none {db : Db} {job : ScrapedJob} {u tc now : String}
    (hv : insertViolates db (newJobRow db.nextJobId job u tc now) = true)
    (hf : db.jobs.find? (fun x => x.url_hash == u) = none) :
    upsert_insert db job u tc now = (db, 0, false) := by
  unfold upsert_insert
  rw [hv, hf]
  simp

/-- Fact: `insertViolates` only inspects the candidate row's `url_hash`,
`source` and `external_id`, none of which depend on the fresh id or the
timestamp. -/
theorem insertViolates_newJobRow (db : Db) (job : ScrapedJob) (u tc : String)
    (n m : ℕ) (t t' : String) :
    insertViolates db (newJobRow n job u tc t) = insertViolates db (newJobRow m job u tc t') := rfl

/-! ## C2: the found-branch frame property -/

/-- C2.  When the URL fingerprint already exists, `upsert_job` returns
`(existingId, false)` and the only change to the table is the matched
row's `date_updated` (set to now) and `is_active` (set to true); the
update function `updRow` provably leaves every other column — identity,
title, company, description, salary, all score fields, user status and
user notes — unchanged, and rows with other ids are untouched. -/
theorem upsert_found_frame (db : Db) (job : ScrapedJob) (now : String) (r : JobRow)
    (h : db.jobs.find? (fun x => x.url_hash == url_hash job.url) = some r) :
    (upsert_job db job now =
      ({ db with jobs := db.jobs.map (fun x => if x.id == r.id then updRow now x else x) },
       r.id, false)) ∧
    (∀ x : JobRow,
       (updRow now x).id = x.id ∧ (updRow now x).external_id = x.external_id ∧
       (updRow now x).source = x.source ∧ (updRow now x).url = x.url ∧
       (updRow now x).url_hash = x.url_hash ∧ (updRow now x).title = x.title ∧
       (updRow now x).company = x.company ∧ (updRow now x).location = x.location ∧
       (updRow now x).is_remote = x.is_remote ∧ (updRow now x).description = x.description ∧
       (updRow now x).description_raw = x.description_raw ∧
       (updRow now x).employment_type = x.employment_type ∧
       (updRow now x).salary_min = x.salary_min ∧ (updRow now x).salary_max = x.salary_max ∧
       (updRow now x).salary_currency = x.salary_currency ∧
       (updRow now x).query_group = x.query_group ∧
       (updRow now x).date_posted = x.date_posted ∧
       (updRow now x).date_scraped = x.date_scraped ∧
       (updRow now x).ai_score = x.ai_score ∧
       (updRow now x).keyword_score = x.keyword_score ∧
       (updRow now x).combined_score = x.combined_score ∧
       (updRow now x).score_reasoning = x.score_reasoning ∧
       (updRow now x).user_status = x.user_status ∧
       (updRow now x).user_notes = x.user_notes ∧
       (updRow now x).title_company_hash = x.title_company_hash ∧
       (updRow now x).date_updated = some now ∧ (updRow now x).is_active = true) := by
  refine ⟨upsert_job_found h, fun x => by and_intros <;> rfl⟩

/-- The existing row for the C2 witness: already scored, with user
notes, inactive, under the fingerprint of `https://x.com/a`. -/
def rowC2 : JobRow :=
  { plainRow 1 "Old Title" with
    url_hash := url_hash "https://x.com/a",
    combined_score := some (3/4), user_notes := some "my notes",
    user_status := "applied", is_active := false }

/-- The C2 witness store and re-scraped posting. -/
def dbC2 : Db := ⟨[rowC2], [], 2, 1⟩

/-- The re-scraped posting hitting `rowC2`'s fingerprint with different
content. -/
def jobC2 : ScrapedJob :=
  { external_id := "e9", source := "s9", url := "https://x.com/a?utm=1",
    title := "New Title", company := "NewCo", date_scraped := "t8" }

/-- C2 witness: on the concrete store, re-upserting a posting with the
same fingerprint returns `(1, false)` and performs exactly the
`updRow`-update of the matched row. -/
theorem upsert_found_frame_witness :
    upsert_job dbC2 jobC2 "t9" =
      ({ dbC2 with
          jobs := dbC2.jobs.map (fun x => if x.id == rowC2.id then updRow "t9" x else x) },
       rowC2.id, false) :=
  (upsert_found_frame dbC2 jobC2 "t9" rowC2 (by with_unfolding_all rfl)).1

/-! ## C1: idempotent upsert -/

/-- The number of stored rows carrying the URL fingerprint `u`
(`SELECT COUNT(*) FROM jobs WHERE url_hash = u`). -/
def urlCount (db : Db) (u : String) : ℕ :=
  db.jobs.countP (fun r => r.url_hash == u)

/-- The `UNIQUE(url_hash)` constraint as a state invariant: no two
stored rows share a URL fingerprint. -/
def UniqueUrlHash (db : Db) : Prop :=
  db.jobs.Pairwise (fun a b => a.url_hash ≠ b.url_hash)

theorem countP_le_one_of_pairwise {l : List JobRow} {u : String}
    (h : l.Pairwise (fun a b => a.url_hash ≠ b.url_hash)) :
    l.countP (fun r => r.url_hash == u) ≤ 1 := by
  induction l with
  | nil => simp
  | cons a t ih =>
    rw [List.pairwise_cons] at h
    rw [List.countP_cons]
    by_cases ha : (a.url_hash == u) = true
    · have hau : a.url_hash = u := by simpa using ha
      have ht0 : t.countP (fun r => r.url_hash == u) = 0 := by
        rw [List.countP_eq_zero]
        intro b hb hbu
        exact (h.1 b hb) (by rw [hau]; exact (eq_of_beq hbu).symm)
      rw [ht0, ha]
      simp
    · rw [if_neg ha, Nat.add_zero]
      exact ih h.2

theorem find?_map_of_pred_inv {l : List JobRow} {p : JobRow → Bool} {g : JobRow → JobRow}
    (hg : ∀ x, p (g x) = p x) : (l.map g).find? p = (l.find? p).map g := by
  rw [List.find?_map]
  have : p ∘ g = p := funext hg
  rw [this]

/-- The found-branch update preserves every row's fingerprint. -/
theorem updMap_pred_inv (now : String) (rid : ℕ) :
    ∀ x : JobRow,
      ((fun y => if y.id == rid then updRow now y else y) x).url_hash = x.url_hash := by
  intro x
  by_cases hx : (x.id == rid) = true <;> simp [hx, updRow]

/-- C1.  Under the `UNIQUE(url_hash)` invariant, upserting the same
posting twice returns the same id from both calls, the second call
reports `is_new = false`, afterwards at most one stored row carries the
posting's URL fingerprint — and the raced insert path (the
`IntegrityError` recovery: the fingerprint appeared between the lookup
and the INSERT) changes nothing and reports `is_new = false`, so a
duplicate insert racing the same fingerprint never produces two rows. -/
theorem upsert_idempotent (db : Db) (job : ScrapedJob) (t1 t2 : String)
    (hwf : UniqueUrlHash db) :
    ((upsert_job (upsert_job db job t1).1 job t2).2.1 = (upsert_job db job t1).2.1) ∧
    ((upsert_job (upsert_job db job t1).1 job t2).2.2 = false) ∧
    (urlCount (upsert_job (upsert_job db job t1).1 job t2).1 (url_hash job.url) ≤ 1) ∧
    (∀ (d : Db) (r : JobRow), r ∈ d.jobs → r.url_hash = url_hash job.url →
       (upsert_insert d job (url_hash job.url)
          (title_company_hash job.title job.company) t2).1 = d ∧
       (upsert_insert d job (url_hash job.url)
          (title_company_hash job.title job.company) t2).2.2 = false) := by
  have race : ∀ (d : Db) (r : JobRow), r ∈ d.jobs → r.url_hash = url_hash job.url →
      (upsert_insert d job (url_hash job.url)
         (title_company_hash job.title job.company) t2).1 = d ∧
      (upsert_insert d job (url_hash job.url)
         (title_company_hash job.title job.company) t2).2.2 = false := by
    intro d r hr hru
    have hviol : insertViolates d (newJobRow d.nextJobId job (url_hash job.url)
        (title_company_hash job.title job.company) t2) = true := by
      rw [insertViolates, Bool.or_eq_true]
      left
      rw [List.any_eq_true]
      exact ⟨r, hr, by simp [newJobRow, hru]⟩
    cases hf : d.jobs.find? (fun x => x.url_hash == url_hash job.url) with
    | none =>
      exfalso
      rw [List.find?_eq_none] at hf
      exact hf r hr (by simp [hru])
    | some r' =>
      rw [upsert_insert_conflict_found hviol hf]
      exact ⟨rfl, rfl⟩
  have main : ((upsert_job (upsert_job db job t1).1 job t2).2.1 =
        (upsert_job db job t1).2.1) ∧
      ((upsert_job (upsert_job db job t1).1 job t2).2.2 = false) ∧
      (urlCount (upsert_job (upsert_job db job t1).1 job t2).1 (url_hash job.url) ≤ 1) := by
    cases hf1 : db.jobs.find? (fun x => x.url_hash == url_hash job.url) with
    | some r =>
      rw [upsert_job_found hf1]
      dsimp only
      have hf2 : (db.jobs.map (fun x => if x.id == r.id then updRow t1 x else x)).find?
          (fun x => x.url_hash == url_hash job.url) = some (updRow t1 r) := by
        rw [find?_map_of_pred_inv (fun x => by rw [updMap_pred_inv t1 r.id x]), hf1]
        simp
      rw [upsert_job_found hf2]
      dsimp only
      refine ⟨by simp [updRow], rfl, ?_⟩
      rw [urlCount]
      dsimp only
      rw [List.countP_map, List.countP_map]
      have heq : (((fun x : JobRow => x.url_hash == url_hash job.url) ∘
          (fun x => if x.id == (updRow t1 r).id then updRow t2 x else x)) ∘
          (fun x => if x.id == r.id then updRow t1 x else x)) =
          (fun x : JobRow => x.url_hash == url_hash job.url) := by
        funext x
        simp only [Function.comp]
        rw [updMap_pred_inv t2 (updRow t1 r).id _, updMap_pred_inv t1 r.id x]
      rw [heq]
      exact countP_le_one_of_pairwise hwf
    | none =>
      by_cases hv : insertViolates db (newJobRow db.nextJobId job (url_hash job.url)
          (title_company_hash job.title job.company) t1) = true
      · rw [upsert_job_not_found hf1, upsert_insert_conflict_none hv hf1]
        dsimp only
        rw [upsert_job_not_found hf1,
          upsert_insert_conflict_none
            ((insertViolates_newJobRow db job (url_hash job.url)
              (title_company_hash job.title job.company)
              db.nextJobId db.nextJobId t2 t1) ▸ hv) hf1]
        refine ⟨rfl, rfl, ?_⟩
        rw [urlCount]
        exact countP_le_one_of_pairwise hwf
      · rw [Bool.not_eq_true] at hv
        rw [upsert_job_not_found hf1, upsert_insert_ok hv]
        dsimp only
        have hnew : ((newJobRow db.nextJobId job (url_hash job.url)
            (title_company_hash job.title job.company) t1).url_hash ==
            url_hash job.url) = true := by simp [newJobRow]
        have hf2 : (db.jobs ++ [newJobRow db.nextJobId job (url_hash job.url)
            (title_company_hash job.title job.company) t1]).find?
            (fun x => x.url_hash == url_hash job.url) =
            some (newJobRow db.nextJobId job (url_hash job.url)
              (title_company_hash job.title job.company) t1) := by
          rw [List.find?_append, hf1]
          simp [hnew]
        rw [upsert_job_found hf2]
        dsimp only
        refine ⟨by simp [newJobRow], rfl, ?_⟩
        rw [urlCount]
        dsimp only
        rw [List.countP_map]
        have heq : ((fun x : JobRow => x.url_hash == url_hash job.url) ∘
            (fun x => if x.id == (newJobRow db.nextJobId job (url_hash job.url)
              (title_company_hash job.title job.company) t1).id then updRow t2 x else x)) =
            (fun x : JobRow => x.url_hash == url_hash job.url) := by
          funext x
          simp only [Function.comp]
          rw [updMap_pred_inv t2 _ x]
        rw [heq, List.countP_append]
        have h0 : db.jobs.countP (fun x => x.url_hash == url_hash job.url) = 0 := by
          rw [List.countP_eq_zero]
          rw [List.find?_eq_none] at hf1
          exact hf1
        rw [h0]
        simp [hnew]
  exact ⟨main.1, main.2.1, main.2.2, race⟩

/-- C1 witness: starting from the empty store (trivially satisfying the
uniqueness invariant), upserting `jobC2` twice returns the same id, the
second call reports `is_new = false`, and one row carries the
fingerprint. -/
theorem upsert_idempotent_witness :
    ((upsert_job (upsert_job ⟨[], [], 1, 1⟩ jobC2 "t1").1 jobC2 "t2").2.1 =
      (upsert_job ⟨[], [], 1, 1⟩ jobC2 "t1").2.1) ∧
    ((upsert_job (upsert_job ⟨[], [], 1, 1⟩ jobC2 "t1").1 jobC2 "t2").2.2 = false) ∧
    (urlCount (upsert_job (upsert_job ⟨[], [], 1, 1⟩ jobC2 "t1").1 jobC2 "t2").1
      (url_hash jobC2.url) ≤ 1) :=
  ⟨(upsert_idempotent ⟨[], [], 1, 1⟩ jobC2 "t1" "t2" List.Pairwise.nil).1,
   (upsert_idempotent ⟨[], [], 1, 1⟩ jobC2 "t1" "t2" List.Pairwise.nil).2.1,
   (upsert_idempotent ⟨[], [], 1, 1⟩ jobC2 "t1" "t2" List.Pairwise.nil).2.2.1⟩

/-! ## C7: URL fingerprint normalization -/

theorem isPySpace_lowerChar (c : Char) : isPySpace (lowerChar c) = isPySpace c := by
  unfold lowerChar
  split <;> rfl

theorem beq_slash_lowerChar (c : Char) : (lowerChar c == '/') = (c == '/') := by
  unfold lowerChar
  split <;> rfl

theorem ne_q_lowerChar (c : Char) : (decide (lowerChar c ≠ '?')) = (decide (c ≠ '?')) := by
  unfold lowerChar
  split <;> rfl

theorem ne_h_lowerChar (c : Char) : (decide (lowerChar c ≠ '#')) = (decide (c ≠ '#')) := by
  unfold lowerChar
  split <;> rfl

theorem lowerL_dropWhile_ws (l : List Char) :
    lowerL (l.dropWhile isPySpace) = (lowerL l).dropWhile isPySpace := by
  unfold lowerL
  rw [List.dropWhile_map]
  have h : (isPySpace ∘ lowerChar) = isPySpace := funext isPySpace_lowerChar
  rw [h]

theorem lowerL_dropWhile_slash (l : List Char) :
    lowerL (l.dropWhile (fun c => c == '/')) = (lowerL l).dropWhile (fun c => c == '/') := by
  unfold lowerL
  rw [List.dropWhile_map]
  have h : ((fun c : Char => c == '/') ∘ lowerChar) = (fun c : Char => c == '/') :=
    funext beq_slash_lowerChar
  rw [h]

theorem lowerL_reverse (l : List Char) : lowerL l.reverse = (lowerL l).reverse := by
  unfold lowerL
  exact List.map_reverse _ _

theorem lowerL_stripL (l : List Char) : lowerL (stripL l) = stripL (lowerL l) := by
  simp [stripL, lowerL_reverse, lowerL_dropWhile_ws]

theorem lowerL_rstripSlash (l : List Char) :
    lowerL (rstripSlash l) = rstripSlash (lowerL l) := by
  simp [rstripSlash, lowerL_reverse, lowerL_dropWhile_slash]

theorem lowerL_takeUntil_q (l : List Char) :
    lowerL (takeUntil '?' l) = takeUntil '?' (lowerL l) := by
  unfold takeUntil lowerL
  rw [List.takeWhile_map]
  have h : ((fun x : Char => decide (x ≠ '?')) ∘ lowerChar) =
      (fun x : Char => decide (x ≠ '?')) := funext ne_q_lowerChar
  rw [h]

theorem lowerL_takeUntil_h (l : List Char) :
    lowerL (takeUntil '#' l) = takeUntil '#' (lowerL l) := by
  unfold takeUntil lowerL
  rw [List.takeWhile_map]
  have h : ((fun x : Char => decide (x ≠ '#')) ∘ lowerChar) =
      (fun x : Char => decide (x ≠ '#')) := funext ne_h_lowerChar
  rw [h]

/-- The URL normalization factors through lowercasing: only the
lowercased character sequence of the input matters. -/
theorem urlNormalize_lower (u : String) :
    urlNormalize u =
      String.mk (takeUntil '#' (takeUntil '?' (rstripSlash (stripL (lowerL u.toList))))) := by
  rw [urlNormalize, lowerL_takeUntil_h, lowerL_takeUntil_q, lowerL_rstripSlash, lowerL_stripL]

theorem length_dropWhile_le' (p : α → Bool) (l : List α) :
    (l.dropWhile p).length ≤ l.length := by
  induction l with
  | nil => simp
  | cons a t ih =>
    rw [List.dropWhile_cons]
    split
    · exact Nat.le_succ_of_le ih
    · exact Nat.le_refl _

theorem dropWhile_length_eq {p : α → Bool} {l : List α}
    (h : (l.dropWhile p).length = l.length) : l.dropWhile p = l := by
  cases l with
  | nil => rfl
  | cons a t =>
    rw [List.dropWhile_cons]
    rw [List.dropWhile_cons] at h
    split
    · rename_i hpa
      rw [if_pos hpa] at h
      have := length_dropWhile_le' p t
      simp at h
      omega
    · rfl

theorem strip_eq_parts {l : List Char} (h : stripL l = l) :
    l.dropWhile isPySpace = l ∧ l.reverse.dropWhile isPySpace = l.reverse := by
  have hlen : (((l.dropWhile isPySpace).reverse.dropWhile isPySpace).reverse).length =
      l.length := by rw [← stripL, h]
  rw [List.length_reverse] at hlen
  have hle1 := length_dropWhile_le' isPySpace (l.dropWhile isPySpace).reverse
  rw [List.length_reverse] at hle1
  have hle2 := length_dropWhile_le' isPySpace l
  have hfront : (l.dropWhile isPySpace).length = l.length := by omega
  have h1 : l.dropWhile isPySpace = l := dropWhile_length_eq hfront
  refine ⟨h1, ?_⟩
  rw [stripL, h1] at h
  have := congrArg List.reverse h
  rw [List.reverse_reverse] at this
  exact this

theorem dropWhile_append_of_eq_self {p : α → Bool} {l l2 : List α}
    (h : l.dropWhile p = l) (h2 : l2.dropWhile p = l2) :
    (l ++ l2).dropWhile p = l ++ l2 := by
  cases l with
  | nil => simpa using h2
  | cons a t =>
    have hpa : p a = false := by
      by_contra hcon
      rw [Bool.not_eq_false] at hcon
      rw [List.dropWhile_cons, if_pos hcon] at h
      have hlen := congrArg List.length h
      have := length_dropWhile_le' p t
      simp at hlen
      omega
    rw [List.cons_append, List.dropWhile_cons, hpa]
    simp

/-- Appending a trailing slash to a whitespace-clean URL leaves the
fingerprint unchanged. -/
theorem url_hash_trailing_slash (u : String) (h : stripL u.toList = u.toList) :
    url_hash (u ++ "/") = url_hash u := by
  obtain ⟨hf, hb⟩ := strip_eq_parts h
  rw [url_hash, url_hash, urlNormalize, urlNormalize]
  have hdata : (u ++ "/").toList = u.toList ++ ['/'] := String.data_append u "/"
  rw [hdata, h]
  have hstrip : stripL (u.toList ++ ['/']) = u.toList ++ ['/'] := by
    rw [stripL]
    rw [dropWhile_append_of_eq_self hf (by rfl)]
    rw [List.reverse_append]
    have : (['/'] : List Char).reverse = ['/'] := rfl
    rw [this, List.singleton_append, List.dropWhile_cons]
    have hws : isPySpace '/' = false := rfl
    rw [hws]
    simp
  rw [hstrip]
  have hr : rstripSlash (u.toList ++ ['/']) = rstripSlash u.toList := by
    rw [rstripSlash, rstripSlash, List.reverse_append]
    have : (['/'] : List Char).reverse = ['/'] := rfl
    rw [this, List.singleton_append, List.dropWhile_cons]
    have hsl : (('/' : Char) == '/') = true := rfl
    rw [hsl]
    simp
  rw [hr]

theorem dropWhile_append_middle {p : α → Bool} {x : α} (hx : p x = false) (A B : List α) :
    (A ++ x :: B).dropWhile p = A.dropWhile p ++ x :: B := by
  induction A with
  | nil => simp [List.dropWhile_cons, hx]
  | cons a t ih =>
    by_cases hpa : p a = true
    · rw [List.cons_append, List.dropWhile_cons, if_pos hpa, List.dropWhile_cons, if_pos hpa, ih]
    · rw [Bool.not_eq_true] at hpa
      rw [List.cons_append, List.dropWhile_cons, hpa, List.dropWhile_cons, hpa]
      simp

theorem takeWhile_append_middle {p : α → Bool} {x : α} (hx : p x = false)
    {A : List α} (hA : ∀ a ∈ A, p a = true) (B : List α) :
    (A ++ x :: B).takeWhile p = A := by
  induction A with
  | nil => simp [List.takeWhile_cons, hx]
  | cons a t ih =>
    rw [List.cons_append, List.takeWhile_cons, if_pos (hA a (List.mem_cons_self a t))]
    rw [ih (fun b hb => hA b (List.mem_cons_of_mem a hb))]

/-- Appending a query string to a clean URL without a trailing slash
leaves the fingerprint unchanged (the hypothesis that `u` does not end
in `/` is essential: `rstrip("/")` runs before the query is dropped). -/
theorem url_hash_query (u q : String)
    (h1 : stripL (u.toList ++ '?' :: q.toList) = u.toList ++ '?' :: q.toList)
    (h2 : stripL u.toList = u.toList)
    (h4 : u.toList.reverse.dropWhile (fun c => c == '/') = u.toList.reverse)
    (hq : '?' ∉ u.toList) :
    url_hash (u ++ "?" ++ q) = url_hash u := by
  rw [url_hash, url_hash, urlNormalize, urlNormalize]
  have hdata : (u ++ "?" ++ q).toList = u.toList ++ '?' :: q.toList := by
    show ((u ++ "?") ++ q).data = u.data ++ '?' :: q.data
    rw [String.data_append, String.data_append]
    simp
  rw [hdata, h1, h2]
  have hrs : rstripSlash (u.toList ++ '?' :: q.toList) =
      u.toList ++ '?' :: (q.toList.reverse.dropWhile (fun c => c == '/')).reverse := by
    rw [rstripSlash]
    rw [List.reverse_append, List.reverse_cons, List.append_assoc, List.singleton_append]
    rw [dropWhile_append_middle (by rfl) _ _]
    rw [List.reverse_append, List.reverse_cons, List.reverse_reverse]
    simp
  rw [hrs]
  have ht1 : takeUntil '?'
      (u.toList ++ '?' :: (q.toList.reverse.dropWhile (fun c => c == '/')).reverse) =
      u.toList := by
    rw [takeUntil]
    refine takeWhile_append_middle (by rfl) (fun a ha => ?_) _
    rw [decide_eq_true_eq]
    exact fun he => hq (he ▸ ha)
  rw [ht1]
  have hr : rstripSlash u.toList = u.toList := by
    rw [rstripSlash, h4, List.reverse_reverse]
  rw [hr]
  have ht2 : takeUntil '?' u.toList = u.toList := by
    rw [takeUntil]
    refine List.takeWhile_eq_self_iff.2 (fun a ha => ?_)
    rw [decide_eq_true_eq]
    exact fun he => hq (he ▸ ha)
  rw [ht2]

/-- Appending a fragment to a clean URL without a trailing slash and
with no query marker leaves the fingerprint unchanged (like the query
case, the no-trailing-slash proviso is essential because `rstrip("/")`
runs before the fragment is dropped). -/
theorem url_hash_fragment (u f : String)
    (h1 : stripL (u.toList ++ '#' :: f.toList) = u.toList ++ '#' :: f.toList)
    (h2 : stripL u.toList = u.toList)
    (h4 : u.toList.reverse.dropWhile (fun c => c == '/') = u.toList.reverse)
    (hq : '?' ∉ u.toList) (hh : '#' ∉ u.toList) (hqf : '?' ∉ f.toList) :
    url_hash (u ++ "#" ++ f) = url_hash u := by
  rw [url_hash, url_hash, urlNormalize, urlNormalize]
  have hdata : (u ++ "#" ++ f).toList = u.toList ++ '#' :: f.toList := by
    show ((u ++ "#") ++ f).data = u.data ++ '#' :: f.data
    rw [String.data_append, String.data_append]
    simp
  rw [hdata, h1, h2]
  have hrs : rstripSlash (u.toList ++ '#' :: f.toList) =
      u.toList ++ '#' :: (f.toList.reverse.dropWhile (fun c => c == '/')).reverse := by
    rw [rstripSlash]
    rw [List.reverse_append, List.reverse_cons, List.append_assoc, List.singleton_append]
    rw [dropWhile_append_middle (by rfl) _ _]
    rw [List.reverse_append, List.reverse_cons, List.reverse_reverse]
    simp
  rw [hrs]
  have hWsub : ∀ a ∈ (f.toList.reverse.dropWhile (fun c => c == '/')).reverse,
      a ∈ f.toList := by
    intro a ha
    rw [List.mem_reverse] at ha
    have := (List.dropWhile_sublist (fun c : Char => c == '/')).subset ha
    rw [List.mem_reverse] at this
    exact this
  have ht1 : takeUntil '?'
      (u.toList ++ '#' :: (f.toList.reverse.dropWhile (fun c => c == '/')).reverse) =
      u.toList ++ '#' :: (f.toList.reverse.dropWhile (fun c => c == '/')).reverse := by
    rw [takeUntil]
    refine List.takeWhile_eq_self_iff.2 (fun a ha => ?_)
    rw [decide_eq_true_eq]
    rcases List.mem_append.1 ha with h | h
    · exact fun he => hq (he ▸ h)
    · rcases List.mem_cons.1 h with h | h
      · intro he
        rw [h] at he
        exact absurd he (by decide)
      · exact fun he => hqf (he ▸ hWsub a h)
  rw [ht1]
  have ht2 : takeUntil '#'
      (u.toList ++ '#' :: (f.toList.reverse.dropWhile (fun c => c == '/')).reverse) =
      u.toList := by
    rw [takeUntil]
    refine takeWhile_append_middle (by rfl) (fun a ha => ?_) _
    rw [decide_eq_true_eq]
    exact fun he => hh (he ▸ ha)
  rw [ht2]
  have hr : rstripSlash u.toList = u.toList := by
    rw [rstripSlash, h4, List.reverse_reverse]
  rw [hr]
  have ht3 : takeUntil '?' u.toList = u.toList := by
    rw [takeUntil]
    refine List.takeWhile_eq_self_iff.2 (fun a ha => ?_)
    rw [decide_eq_true_eq]
    exact fun he => hq (he ▸ ha)
  rw [ht3]
  have ht4 : takeUntil '#' u.toList = u.toList := by
    rw [takeUntil]
    refine List.takeWhile_eq_self_iff.2 (fun a ha => ?_)
    rw [decide_eq_true_eq]
    exact fun he => hh (he ▸ ha)
  rw [ht4]

/-- C7 counterexample.  The claim asserts invariance under
removal/addition of a query string together with a trailing slash, but
the code strips trailing slashes BEFORE dropping the query string:
`https://x.com/job/1/?ref=abc` keeps its trailing slash and so gets a
different fingerprint than `https://x.com/job/1`. -/
theorem url_hash_query_slash_counterexample :
    url_hash "https://x.com/job/1/?ref=abc" ≠ url_hash "https://x.com/job/1" ∧
    urlNormalize "https://x.com/job/1/?ref=abc" = "https://x.com/job/1/" ∧
    urlNormalize "https://x.com/job/1" = "https://x.com/job/1" := by
  refine ⟨by decide, by decide, by decide⟩

/-- C7 (amended).  The three spec example URLs share one fingerprint;
the fingerprint is invariant under case changes and under appending a
trailing slash to a whitespace-clean URL; and appending a query string
or a fragment preserves the fingerprint provided the base URL does not
end in a slash (the code strips trailing slashes before dropping the
query string and fragment, so a URL with a slash directly before its
query string — e.g. `https://x.com/job/1/?ref=abc` — keeps the slash
and gets a different fingerprint). -/
theorem url_hash_normalization :
    (url_hash "https://x.com/job/1" = url_hash "https://x.com/job/1/" ∧
     url_hash "https://x.com/job/1" = url_hash "https://x.com/job/1?ref=abc") ∧
    (∀ u v : String, lowerL u.toList = lowerL v.toList → url_hash u = url_hash v) ∧
    (∀ u : String, stripL u.toList = u.toList → url_hash (u ++ "/") = url_hash u) ∧
    (∀ u q : String,
       stripL (u.toList ++ '?' :: q.toList) = u.toList ++ '?' :: q.toList →
       stripL u.toList = u.toList →
       u.toList.reverse.dropWhile (fun c => c == '/') = u.toList.reverse →
       '?' ∉ u.toList →
       url_hash (u ++ "?" ++ q) = url_hash u) ∧
    (∀ u f : String,
       stripL (u.toList ++ '#' :: f.toList) = u.toList ++ '#' :: f.toList →
       stripL u.toList = u.toList →
       u.toList.reverse.dropWhile (fun c => c == '/') = u.toList.reverse →
       '?' ∉ u.toList → '#' ∉ u.toList → '?' ∉ f.toList →
       url_hash (u ++ "#" ++ f) = url_hash u) := by
  refine ⟨⟨by decide, by decide⟩, ?_, url_hash_trailing_slash, url_hash_query,
    url_hash_fragment⟩
  intro u v h
  rw [url_hash, url_hash, urlNormalize_lower, urlNormalize_lower, h]

/-- C7 witness: the invariance clauses applied at concrete URLs — case
change, trailing slash, the spec's own query-string example, and a
fragment. -/
theorem url_hash_normalization_witness :
    (url_hash "HTTPS://X.com/Job/1" = url_hash "https://x.com/job/1") ∧
    (url_hash ("https://x.com/job/1" ++ "/") = url_hash "https://x.com/job/1") ∧
    (url_hash ("https://x.com/job/1" ++ "?" ++ "ref=abc") = url_hash "https://x.com/job/1") ∧
    (url_hash ("https://x.com/job/1" ++ "#" ++ "frag") = url_hash "https://x.com/job/1") :=
  ⟨(url_hash_normalization).2.1 "HTTPS://X.com/Job/1" "https://x.com/job/1" (by decide),
   (url_hash_normalization).2.2.1 "https://x.com/job/1" (by decide),
   (url_hash_normalization).2.2.2.1 "https://x.com/job/1" "ref=abc" (by decide) (by decide)
     (by decide) (by decide),
   (url_hash_normalization).2.2.2.2 "https://x.com/job/1" "frag" (by decide) (by decide)
     (by decide) (by decide) (by decide) (by decide)⟩

/-! ## C8: prompt description truncation -/

theorem rfindSpace_replicate_a (n : ℕ) : rfindSpace (List.replicate n 'a') = -1 := by
  rw [rfindSpace]
  have h : (List.replicate n 'a').reverse.findIdx? (fun x => x == ' ') = none := by
    rw [List.findIdx?_eq_none_iff]
    intro x hx
    rw [List.reverse_replicate, List.mem_replicate] at hx
    rw [hx.2]
    rfl
  rw [h]

/-- C8 counterexample.  The claim bounds the embedded text by 3000
characters, but `truncate` appends a three-character ellipsis after
cutting: on an input of 3001 non-space characters the result has 3003
characters. -/
theorem truncate_3003_counterexample :
    ¬ ((truncate (String.mk (List.replicate 3001 'a')) 3000).length ≤ 3000) ∧
    (truncate (String.mk (List.replicate 3001 'a')) 3000).length = 3003 ∧
    descTruncated (some (String.mk (List.replicate 3001 'a'))) =
      truncate (String.mk (List.replicate 3001 'a')) 3000 := by
  have hlen : (String.mk (List.replicate 3001 'a')).length = 3001 := by
    show (List.replicate 3001 'a').length = 3001
    rw [List.length_replicate]
  have hres : truncate (String.mk (List.replicate 3001 'a')) 3000 =
      String.mk (List.replicate 3000 'a') ++ "..." := by
    rw [truncate, if_neg (by rw [hlen]; omega)]
    have htake : (String.mk (List.replicate 3001 'a')).toList.take 3000 =
        List.replicate 3000 'a' := by
      show (List.replicate 3001 'a').take 3000 = _
      rw [List.take_replicate]
      norm_num
    dsimp only
    rw [htake, rfindSpace_replicate_a]
    rw [if_neg (by push_cast; norm_num)]
  have h3 : (truncate (String.mk (List.replicate 3001 'a')) 3000).length = 3003 := by
    rw [hres, String.length_append]
    have h1 : (String.mk (List.replicate 3000 'a')).length = 3000 := by
      show (List.replicate 3000 'a').length = 3000
      rw [List.length_replicate]
    rw [h1]
    rfl
  refine ⟨by omega, h3, ?_⟩
  have hne : (String.mk (List.replicate 3001 'a')).isEmpty = false := by
    rw [Bool.eq_false_iff]
    intro hcon
    rw [String.isEmpty_iff] at hcon
    have := congrArg String.length hcon
    rw [hlen] at this
    simp at this
  rw [descTruncated]
  show truncate
      (if (String.mk (List.replicate 3001 'a')).isEmpty = true
       then "No description available" else String.mk (List.replicate 3001 'a')) 3000 = _
  rw [hne, if_neg (by simp)]

/-- C8 (amended).  The text `truncate` embeds into the AI prompt is at
most 3003 characters: at most 3000 characters of content plus the
three-character ellipsis appended after any cut.  An input of at most
3000 characters is returned verbatim; on a longer input, when the last
space among the first 3000 characters falls past position 2400 (80% of
the limit) the content is cut at that preceding word boundary (and the
ellipsis appended); and the prompt's description field obeys the same
3003 bound for every optional description. -/
theorem truncate_truncates (s : String) :
    ((truncate s 3000).length ≤ 3003) ∧
    (s.length ≤ 3000 → truncate s 3000 = s) ∧
    (∀ j : Int, 3000 < s.length → rfindSpace (s.toList.take 3000) = j →
       ((j : ℚ) > 2400) →
       truncate s 3000 = String.mk ((s.toList.take 3000).take j.toNat) ++ "...") ∧
    (∀ d : Option String, (descTruncated d).length ≤ 3003) := by
  have hbound : ∀ t : String, (truncate t 3000).length ≤ 3003 := by
    intro t
    rw [truncate]
    split
    · rename_i h
      omega
    · dsimp only
      rw [String.length_append]
      have hdots : ("..." : String).length = 3 := rfl
      rw [hdots]
      have hX : ∀ X : List Char, (String.mk X).length = X.length := fun _ => rfl
      split
      · rw [hX]
        have h1 := List.length_take_le (rfindSpace (t.toList.take 3000)).toNat
          (t.toList.take 3000)
        have h2 := List.length_take_le 3000 t.toList
        have h3 := List.length_take_le' (rfindSpace (t.toList.take 3000)).toNat
          (t.toList.take 3000)
        omega
      · rw [hX]
        have h2 := List.length_take_le 3000 t.toList
        omega
  refine ⟨hbound s, ?_, ?_, fun d => hbound _⟩
  · intro h
    rw [truncate, if_pos h]
  · intro j hgt hfind hcond
    rw [truncate, if_neg (by omega)]
    dsimp only
    rw [hfind]
    rw [if_pos (by norm_num; exact hcond)]

/-- The C8 witness input: 2500 letters, a space, then 600 more letters —
3101 characters, whose last space among the first 3000 sits at index
2500, past the 80% point. -/
def wordBoundaryInput : String :=
  String.mk (List.replicate 2500 'a' ++ ' ' :: List.replicate 600 'b')

/-- C8 witness: a short input is returned verbatim, and on
`wordBoundaryInput` the cut lands on the word boundary at index 2500. -/
theorem truncate_truncates_witness :
    truncate "hello world" 3000 = "hello world" ∧
    truncate wordBoundaryInput 3000 =
      String.mk ((wordBoundaryInput.toList.take 3000).take (Int.toNat 2500)) ++ "..." := by
  have hlen : wordBoundaryInput.length = 3101 := by
    show (List.replicate 2500 'a' ++ ' ' :: List.replicate 600 'b').length = 3101
    rw [List.length_append, List.length_replicate, List.length_cons, List.length_replicate]
  have htake : wordBoundaryInput.toList.take 3000 =
      List.replicate 2500 'a' ++ ' ' :: List.replicate 499 'b' := by
    show (List.replicate 2500 'a' ++ ' ' :: List.replicate 600 'b').take 3000 = _
    have h2500 : (List.replicate 2500 'a').length = 2500 := List.length_replicate ..
    have : (3000 : ℕ) = (List.replicate 2500 'a').length + 500 := by rw [h2500]
    rw [this, List.take_append]
    have : (' ' :: List.replicate 600 'b').take 500 = ' ' :: (List.replicate 600 'b').take 499 := by
      rfl
    rw [this, List.take_replicate]
    norm_num
  have hrf : rfindSpace (wordBoundaryInput.toList.take 3000) = 2500 := by
    rw [htake, rfindSpace]
    have hrev : (List.replicate 2500 'a' ++ ' ' :: List.replicate 499 'b').reverse =
        List.replicate 499 'b' ++ ' ' :: List.replicate 2500 'a' := by
      rw [List.reverse_append, List.reverse_cons, List.reverse_replicate,
        List.reverse_replicate, List.append_assoc, List.singleton_append]
    rw [hrev, List.findIdx?_append]
    have h1 : (List.replicate 499 'b').findIdx? (fun x => x == ' ') = none := by
      rw [List.findIdx?_eq_none_iff]
      intro x hx
      rw [List.mem_replicate] at hx
      rw [hx.2]
      rfl
    have h2 : (' ' :: List.replicate 2500 'a').findIdx? (fun x => x == ' ') = some 0 := by
      rw [List.findIdx?_cons]
      rfl
    rw [h1, h2]
    have hl : (List.replicate 2500 'a' ++ ' ' :: List.replicate 499 'b').length = 3000 := by
      rw [List.length_append, List.length_replicate, List.length_cons, List.length_replicate]
    rw [hl]
    have h499 : (List.replicate 499 'b').length = 499 := List.length_replicate ..
    rw [h499]
    rfl
  refine ⟨(truncate_truncates "hello world").2.1 (by decide), ?_⟩
  exact (truncate_truncates wordBoundaryInput).2.2.1 2500 (by omega) hrf (by norm_num)

end GameJobTracker
